import Mathlib

/-!
Verification of the geographic/deck-building utilities of
`anki-wikidata-geography` (`make_map.py`, `build_deck.py`).

Coordinates are modelled as rationals; Python lists as `List`; values that a
Python function may fail to produce are wrapped in `Option`/`Except`.
-/

/-- Python `min` over a nonempty list (the `[]` case is junk, matching the
fact that Python `min` raises on an empty sequence and is never called so). -/
def listMin : List ℚ → ℚ
  | [] => 0
  | x :: xs => xs.foldl min x

/-- Python `max` over a nonempty list. -/
def listMax : List ℚ → ℚ
  | [] => 0
  | x :: xs => xs.foldl max x

/-- Line 25 of `make_map.py`: `point[1] if point[1] <= 180 else point[1] - 360`. -/
def normalize_lon (lon : ℚ) : ℚ := if lon ≤ 180 then lon else lon - 360

/-- Line 25 of `make_map.py`: the list of normalized longitudes. -/
def longitudes (points : List (ℚ × ℚ)) : List ℚ :=
  points.map (fun p => normalize_lon p.2)

/-- Line 28 of `make_map.py`: `sorted(longitudes)`. -/
def sorted_longs (points : List (ℚ × ℚ)) : List ℚ :=
  List.insertionSort (· ≤ ·) (longitudes points)

/-- One step of Python `max` over `(gap, index)` tuples: lexicographic
comparison, replacing the current best only on a strictly larger tuple,
so the first maximal tuple wins (tuples here have distinct indices, hence
ties on the gap value are resolved towards the larger index). -/
def pairMaxStep (b c : ℚ × ℕ) : ℚ × ℕ :=
  if b.1 < c.1 ∨ (b.1 = c.1 ∧ b.2 < c.2) then c else b

/-- Python `max` over a nonempty list of `(gap, index)` tuples. -/
def pairsMax : List (ℚ × ℕ) → ℚ × ℕ
  | [] => (0, 0)
  | x :: xs => xs.foldl pairMaxStep x

/-- Line 36 of `make_map.py`: the generator
`((sorted_longs[i] - sorted_longs[i - 1], i) for i in range(1, len(sorted_longs)))`. -/
def gapPairs (s : List ℚ) : List (ℚ × ℕ) :=
  (List.range' 1 (s.length - 1)).map (fun i => (s.getD i 0 - s.getD (i - 1) 0, i))

/-- Lines 11-53 of `make_map.py`, `bounding_box_for_points`: returns
`(min_lat, min_lon, max_lat, max_lon)`; `none` models the exception Python
raises on an empty argument list. -/
def bounding_box_for_points (points : List (ℚ × ℚ)) : Option (ℚ × ℚ × ℚ × ℚ) :=
  match points with
  | [] => none
  | _ :: _ =>
    let min_lat := listMin (points.map Prod.fst)
    let max_lat := listMax (points.map Prod.fst)
    let longs := longitudes points
    let s := sorted_longs points
    if 180 < s.getLastD 0 - s.headD 0 then
      let gap_index := (pairsMax (gapPairs s)).2
      let right_of_gap := s.drop gap_index
      let left_of_gap := s.take gap_index
      some (min_lat, listMin right_of_gap, max_lat, listMax left_of_gap)
    else
      some (min_lat, listMin longs, max_lat, listMax longs)

/-- Python truthiness of an optional float: `None` and `0` are falsy. -/
def truthy : Option ℚ → Bool
  | none => false
  | some x => decide (x ≠ 0)

/-- Lines 60 and 86 of `make_map.py`: the guard `if lat and lon:` controlling
both the inclusion of the marker point and the drawing of the marker. -/
def make_map_marker_drawn (lat lon : Option ℚ) : Bool := truthy lat && truthy lon

/-- Line 74 of `make_map.py`: the box widened by one degree on every side. -/
def bigger_box (bb : ℚ × ℚ × ℚ × ℚ) : ℚ × ℚ × ℚ × ℚ :=
  (bb.1 - 1, bb.2.1 - 1, bb.2.2.1 + 1, bb.2.2.2 + 1)

/-- Lines 73-79 of `make_map.py`: the central longitude chosen by `make_map`
for the points it includes (`180` iff `bigger_box[1] > bigger_box[3]`). -/
def central_longitude (points : List (ℚ × ℚ)) : Option ℚ :=
  (bounding_box_for_points points).map (fun bb =>
    let b := bigger_box bb
    if b.2.2.2 < b.2.1 then 180 else 0)

/-- Line 84 of `make_map.py`: `set_extent([bigger_box[1], bigger_box[3],
bigger_box[0], bigger_box[2]])`, i.e. `(x0, x1, y0, y1)`. -/
def map_extent (points : List (ℚ × ℚ)) : Option (ℚ × ℚ × ℚ × ℚ) :=
  (bounding_box_for_points points).map (fun bb =>
    let b := bigger_box bb
    (b.2.1, b.2.2.2, b.1, b.2.2.1))

/-! Generic facts about the folded Python `min` and `max`. -/

lemma foldl_min_le_init (xs : List ℚ) (a : ℚ) : xs.foldl min a ≤ a := by
  induction xs generalizing a with
  | nil => exact le_refl a
  | cons x xs ih => exact le_trans (ih (min a x)) (min_le_left a x)

lemma foldl_min_le_mem (xs : List ℚ) (a x : ℚ) (hx : x ∈ xs) : xs.foldl min a ≤ x := by
  induction xs generalizing a with
  | nil => cases hx
  | cons y ys ih =>
    rcases List.mem_cons.1 hx with h | h
    · subst h
      exact le_trans (foldl_min_le_init ys (min a x)) (min_le_right a x)
    · exact ih (min a y) h

lemma foldl_min_mem (xs : List ℚ) (a : ℚ) : xs.foldl min a = a ∨ xs.foldl min a ∈ xs := by
  induction xs generalizing a with
  | nil => exact Or.inl rfl
  | cons y ys ih =>
    rcases ih (min a y) with h | h
    · rcases min_choice a y with hm | hm
      · exact Or.inl (by rw [List.foldl_cons, h, hm])
      · exact Or.inr (by rw [List.foldl_cons, h, hm]; exact List.mem_cons_self y ys)
    · exact Or.inr (List.mem_cons_of_mem y h)

lemma foldl_max_init_le (xs : List ℚ) (a : ℚ) : a ≤ xs.foldl max a := by
  induction xs generalizing a with
  | nil => exact le_refl a
  | cons x xs ih => exact le_trans (le_max_left a x) (ih (max a x))

lemma foldl_max_mem_le (xs : List ℚ) (a x : ℚ) (hx : x ∈ xs) : x ≤ xs.foldl max a := by
  induction xs generalizing a with
  | nil => cases hx
  | cons y ys ih =>
    rcases List.mem_cons.1 hx with h | h
    · subst h
      exact le_trans (le_max_right a x) (foldl_max_init_le ys (max a x))
    · exact ih (max a y) h

lemma foldl_max_mem (xs : List ℚ) (a : ℚ) : xs.foldl max a = a ∨ xs.foldl max a ∈ xs := by
  induction xs generalizing a with
  | nil => exact Or.inl rfl
  | cons y ys ih =>
    rcases ih (max a y) with h | h
    · rcases max_choice a y with hm | hm
      · exact Or.inl (by rw [List.foldl_cons, h, hm])
      · exact Or.inr (by rw [List.foldl_cons, h, hm]; exact List.mem_cons_self y ys)
    · exact Or.inr (List.mem_cons_of_mem y h)

lemma listMin_mem {l : List ℚ} (h : l ≠ []) : listMin l ∈ l := by
  match l with
  | [] => exact absurd rfl h
  | x :: xs =>
    rcases foldl_min_mem xs x with h' | h'
    · rw [listMin, h']; exact List.mem_cons_self x xs
    · exact List.mem_cons_of_mem x (by rw [listMin]; exact h')

lemma listMin_le {l : List ℚ} (x : ℚ) (hx : x ∈ l) : listMin l ≤ x := by
  match l with
  | [] => cases hx
  | y :: ys =>
    rcases List.mem_cons.1 hx with h | h
    · subst h; exact foldl_min_le_init ys x
    · exact foldl_min_le_mem ys y x h

lemma listMax_mem {l : List ℚ} (h : l ≠ []) : listMax l ∈ l := by
  match l with
  | [] => exact absurd rfl h
  | x :: xs =>
    rcases foldl_max_mem xs x with h' | h'
    · rw [listMax, h']; exact List.mem_cons_self x xs
    · exact List.mem_cons_of_mem x (by rw [listMax]; exact h')

lemma listMax_le {l : List ℚ} (x : ℚ) (hx : x ∈ l) : x ≤ listMax l := by
  match l with
  | [] => cases hx
  | y :: ys =>
    rcases List.mem_cons.1 hx with h | h
    · subst h; exact foldl_max_init_le ys x
    · exact foldl_max_mem_le ys y x h

/-! Index lookups in sorted lists. -/

lemma getD_eq_getElem_of_lt (l : List ℚ) (i : ℕ) (h : i < l.length) :
    l.getD i 0 = l[i] := by
  simp [List.getD_eq_getElem?_getD, List.getElem?_eq_getElem h]

lemma getD_mem_of_lt (l : List ℚ) (i : ℕ) (h : i < l.length) : l.getD i 0 ∈ l := by
  rw [getD_eq_getElem_of_lt l i h]
  exact List.getElem_mem h

lemma sorted_getD_mono {s : List ℚ} (hs : List.Sorted (· ≤ ·) s) {i j : ℕ}
    (hij : i ≤ j) (hj : j < s.length) : s.getD i 0 ≤ s.getD j 0 := by
  rcases Nat.lt_or_ge i j with h | h
  · rw [getD_eq_getElem_of_lt s i (lt_trans h hj), getD_eq_getElem_of_lt s j hj]
    exact List.pairwise_iff_getElem.1 hs i j (lt_trans h hj) hj h
  · have : i = j := le_antisymm hij h
    subst this
    exact le_refl _

lemma listMin_drop_sorted {s : List ℚ} (hs : List.Sorted (· ≤ ·) s) {g : ℕ}
    (hg : g < s.length) : listMin (s.drop g) = s.getD g 0 := by
  have hd : s.drop g = s[g] :: s.drop (g + 1) := List.drop_eq_getElem_cons hg
  have hsd : List.Sorted (· ≤ ·) (s.drop g) := hs.sublist (List.drop_sublist g s)
  rw [hd] at hsd
  have hhead : ∀ x ∈ s.drop (g + 1), s[g] ≤ x := (List.pairwise_cons.1 hsd).1
  have h1 : listMin (s.drop g) ≤ s[g] := by
    apply listMin_le
    rw [hd]; exact List.mem_cons_self _ _
  have hne : s.drop g ≠ [] := by rw [hd]; exact List.cons_ne_nil _ _
  have h2 : s[g] ≤ listMin (s.drop g) := by
    have hmem : listMin (s.drop g) ∈ s[g] :: s.drop (g + 1) := by
      rw [← hd]; exact listMin_mem hne
    rcases List.mem_cons.1 hmem with h | h
    · rw [h]
    · exact hhead _ h
  rw [getD_eq_getElem_of_lt s g hg]
  exact le_antisymm h1 h2

lemma listMax_take_sorted {s : List ℚ} (hs : List.Sorted (· ≤ ·) s) {g : ℕ}
    (hg1 : 1 ≤ g) (hg2 : g ≤ s.length) : listMax (s.take g) = s.getD (g - 1) 0 := by
  have hlen : (s.take g).length = g := by
    rw [List.length_take]
    exact Nat.min_eq_left hg2
  have hne : s.take g ≠ [] := by
    intro h
    rw [h] at hlen
    simp at hlen
    omega
  have hgetD : ∀ k, k < g → (s.take g).getD k 0 = s.getD k 0 := by
    intro k hk
    simp [List.getD_eq_getElem?_getD, List.getElem?_take_of_lt hk]
  have hmem := listMax_mem hne
  rcases List.mem_iff_getElem.1 hmem with ⟨k, hk, hkeq⟩
  have hkg : k < g := by rw [hlen] at hk; exact hk
  have h1 : listMax (s.take g) ≤ s.getD (g - 1) 0 := by
    rw [← hkeq, ← getD_eq_getElem_of_lt _ k hk, hgetD k hkg]
    exact sorted_getD_mono hs (by omega) (by omega)
  have h2 : s.getD (g - 1) 0 ≤ listMax (s.take g) := by
    apply listMax_le
    rw [← hgetD (g - 1) (by omega)]
    apply getD_mem_of_lt
    rw [hlen]; omega
  exact le_antisymm h1 h2

/-! Facts about the Python `max` over `(gap, index)` tuples. -/

lemma pairMaxStep_fst_le_left (b c : ℚ × ℕ) : b.1 ≤ (pairMaxStep b c).1 := by
  rw [pairMaxStep]
  split
  · rename_i h
    rcases h with h | h
    · exact le_of_lt h
    · exact le_of_eq h.1
  · exact le_refl _

lemma pairMaxStep_fst_le_right (b c : ℚ × ℕ) : c.1 ≤ (pairMaxStep b c).1 := by
  rw [pairMaxStep]
  split
  · exact le_refl _
  · rename_i h
    push_neg at h
    exact h.1

lemma foldl_pairMaxStep_init_le (xs : List (ℚ × ℕ)) (b : ℚ × ℕ) :
    b.1 ≤ (xs.foldl pairMaxStep b).1 := by
  induction xs generalizing b with
  | nil => exact le_refl _
  | cons y ys ih => exact le_trans (pairMaxStep_fst_le_left b y) (ih (pairMaxStep b y))

lemma foldl_pairMaxStep_mem_le (xs : List (ℚ × ℕ)) (b y : ℚ × ℕ) (hy : y ∈ xs) :
    y.1 ≤ (xs.foldl pairMaxStep b).1 := by
  induction xs generalizing b with
  | nil => cases hy
  | cons z zs ih =>
    rcases List.mem_cons.1 hy with h | h
    · subst h
      exact le_trans (pairMaxStep_fst_le_right b y) (foldl_pairMaxStep_init_le zs _)
    · exact ih (pairMaxStep b z) h

lemma pairMaxStep_choice (b c : ℚ × ℕ) : pairMaxStep b c = b ∨ pairMaxStep b c = c := by
  rw [pairMaxStep]
  split
  · exact Or.inr rfl
  · exact Or.inl rfl

lemma foldl_pairMaxStep_mem (xs : List (ℚ × ℕ)) (b : ℚ × ℕ) :
    xs.foldl pairMaxStep b = b ∨ xs.foldl pairMaxStep b ∈ xs := by
  induction xs generalizing b with
  | nil => exact Or.inl rfl
  | cons y ys ih =>
    rcases ih (pairMaxStep b y) with h | h
    · rcases pairMaxStep_choice b y with hc | hc
      · exact Or.inl (by rw [List.foldl_cons, h, hc])
      · exact Or.inr (by rw [List.foldl_cons, h, hc]; exact List.mem_cons_self y ys)
    · exact Or.inr (List.mem_cons_of_mem y (by rw [List.foldl_cons]; exact h))

lemma pairsMax_mem (x : ℚ × ℕ) (xs : List (ℚ × ℕ)) : pairsMax (x :: xs) ∈ x :: xs := by
  rcases foldl_pairMaxStep_mem xs x with h | h
  · rw [pairsMax, h]; exact List.mem_cons_self x xs
  · exact List.mem_cons_of_mem x (by rw [pairsMax]; exact h)

lemma pairsMax_fst_ge (x : ℚ × ℕ) (xs : List (ℚ × ℕ)) (y : ℚ × ℕ) (hy : y ∈ x :: xs) :
    y.1 ≤ (pairsMax (x :: xs)).1 := by
  rcases List.mem_cons.1 hy with h | h
  · subst h; exact foldl_pairMaxStep_init_le xs y
  · exact foldl_pairMaxStep_mem_le xs x y h

/-! Facts about the list of adjacent gaps. -/

lemma mem_gapPairs {s : List ℚ} {q : ℚ × ℕ} :
    q ∈ gapPairs s ↔ ∃ i, 1 ≤ i ∧ i < s.length ∧ q = (s.getD i 0 - s.getD (i - 1) 0, i) := by
  rw [gapPairs, List.mem_map]
  constructor
  · rintro ⟨i, hi, rfl⟩
    rw [List.mem_range'] at hi
    rcases hi with ⟨k, hk, rfl⟩
    exact ⟨1 + 1 * k, by omega, by omega, rfl⟩
  · rintro ⟨i, h1, h2, rfl⟩
    exact ⟨i, List.mem_range'.2 ⟨i - 1, by omega, by omega⟩, rfl⟩

lemma headD_eq_getD (l : List ℚ) : l.headD 0 = l.getD 0 0 := by
  cases l <;> rfl

lemma getLastD_eq_getD (l : List ℚ) : l.getLastD 0 = l.getD (l.length - 1) 0 := by
  rw [List.getLastD_eq_getLast?, List.getLast?_eq_getElem?]
  simp [List.getD_eq_getElem?_getD]

lemma sorted_longs_length (pts : List (ℚ × ℚ)) : (sorted_longs pts).length = pts.length := by
  rw [sorted_longs, List.length_insertionSort, longitudes, List.length_map]

lemma sorted_longs_sorted (pts : List (ℚ × ℚ)) : List.Sorted (· ≤ ·) (sorted_longs pts) :=
  List.sorted_insertionSort _ _

lemma sorted_longs_perm (pts : List (ℚ × ℚ)) : List.Perm (sorted_longs pts) (longitudes pts) :=
  List.perm_insertionSort _ _

/-! The two branches of `bounding_box_for_points`. -/

lemma bounding_box_eq_cross (p : ℚ × ℚ) (ps : List (ℚ × ℚ))
    (h : 180 < (sorted_longs (p :: ps)).getLastD 0 - (sorted_longs (p :: ps)).headD 0) :
    bounding_box_for_points (p :: ps) =
      some (listMin ((p :: ps).map Prod.fst),
            listMin ((sorted_longs (p :: ps)).drop (pairsMax (gapPairs (sorted_longs (p :: ps)))).2),
            listMax ((p :: ps).map Prod.fst),
            listMax ((sorted_longs (p :: ps)).take (pairsMax (gapPairs (sorted_longs (p :: ps)))).2)) := by
  simp only [bounding_box_for_points]
  rw [if_pos h]

lemma bounding_box_eq_nocross (p : ℚ × ℚ) (ps : List (ℚ × ℚ))
    (h : ¬ 180 < (sorted_longs (p :: ps)).getLastD 0 - (sorted_longs (p :: ps)).headD 0) :
    bounding_box_for_points (p :: ps) =
      some (listMin ((p :: ps).map Prod.fst), listMin (longitudes (p :: ps)),
            listMax ((p :: ps).map Prod.fst), listMax (longitudes (p :: ps))) := by
  simp only [bounding_box_for_points]
  rw [if_neg h]

lemma lat_bound_facts (p : ℚ × ℚ) (ps : List (ℚ × ℚ)) :
    (∃ q ∈ p :: ps, q.1 = listMin ((p :: ps).map Prod.fst)) ∧
    (∀ q ∈ p :: ps, listMin ((p :: ps).map Prod.fst) ≤ q.1) ∧
    (∃ q ∈ p :: ps, q.1 = listMax ((p :: ps).map Prod.fst)) ∧
    (∀ q ∈ p :: ps, q.1 ≤ listMax ((p :: ps).map Prod.fst)) := by
  have hne : (p :: ps).map Prod.fst ≠ [] := by simp
  refine ⟨?_, ?_, ?_, ?_⟩
  · rcases List.mem_map.1 (listMin_mem hne) with ⟨q, hq, hq1⟩
    exact ⟨q, hq, hq1⟩
  · intro q hq
    exact listMin_le q.1 (List.mem_map_of_mem Prod.fst hq)
  · rcases List.mem_map.1 (listMax_mem hne) with ⟨q, hq, hq1⟩
    exact ⟨q, hq, hq1⟩
  · intro q hq
    exact listMax_le q.1 (List.mem_map_of_mem Prod.fst hq)

/-! Claim theorems about `bounding_box_for_points` and `make_map`. -/

/-- C1: for a non-empty list of points whose longitudes lie in `[-180, 180]` and do not
cross the date line (no two longitudes further than 180° apart), `bounding_box_for_points`
returns `(min_lat, min_lon, max_lat, max_lon)` where each component is exactly the true
minimum/maximum latitude resp. longitude of the input points (each bound is attained by
an input point and bounds all input points). -/
theorem bounding_box_exact_when_not_crossing (p : ℚ × ℚ) (ps : List (ℚ × ℚ))
    (hrange : ∀ q ∈ p :: ps, -180 ≤ q.2 ∧ q.2 ≤ 180)
    (hspread : ∀ q ∈ p :: ps, ∀ r ∈ p :: ps, q.2 - r.2 ≤ 180) :
    ∃ a b c d, bounding_box_for_points (p :: ps) = some (a, b, c, d) ∧
      (∃ q ∈ p :: ps, q.1 = a) ∧ (∀ q ∈ p :: ps, a ≤ q.1) ∧
      (∃ q ∈ p :: ps, q.2 = b) ∧ (∀ q ∈ p :: ps, b ≤ q.2) ∧
      (∃ q ∈ p :: ps, q.1 = c) ∧ (∀ q ∈ p :: ps, q.1 ≤ c) ∧
      (∃ q ∈ p :: ps, q.2 = d) ∧ (∀ q ∈ p :: ps, q.2 ≤ d) := by
  have hid : longitudes (p :: ps) = (p :: ps).map Prod.snd := by
    rw [longitudes]
    apply List.map_congr_left
    intro q hq
    rw [normalize_lon, if_pos (hrange q hq).2]
  have hlenpos : 0 < (sorted_longs (p :: ps)).length := by
    rw [sorted_longs_length]; simp
  have hne : sorted_longs (p :: ps) ≠ [] := List.ne_nil_of_length_pos hlenpos
  have hmem_pts : ∀ x ∈ sorted_longs (p :: ps), ∃ q ∈ p :: ps, q.2 = x := by
    intro x hx
    have hx' : x ∈ longitudes (p :: ps) := (sorted_longs_perm (p :: ps)).mem_iff.1 hx
    rw [hid] at hx'
    rcases List.mem_map.1 hx' with ⟨q, hq, hq2⟩
    exact ⟨q, hq, hq2⟩
  have hncross : ¬ 180 < (sorted_longs (p :: ps)).getLastD 0 - (sorted_longs (p :: ps)).headD 0 := by
    intro hcr
    have hlast : (sorted_longs (p :: ps)).getLastD 0 ∈ sorted_longs (p :: ps) := by
      rw [getLastD_eq_getD]
      exact getD_mem_of_lt _ _ (by omega)
    have hhead : (sorted_longs (p :: ps)).headD 0 ∈ sorted_longs (p :: ps) := by
      rw [headD_eq_getD]
      exact getD_mem_of_lt _ _ (by omega)
    rcases hmem_pts _ hlast with ⟨q, hq, hq2⟩
    rcases hmem_pts _ hhead with ⟨r, hr, hr2⟩
    have := hspread q hq r hr
    rw [hq2, hr2] at this
    linarith
  rw [bounding_box_eq_nocross p ps hncross, hid]
  obtain ⟨hminlat, hminlatle, hmaxlat, hmaxlatle⟩ := lat_bound_facts p ps
  have hlonne : (p :: ps).map Prod.snd ≠ [] := by simp
  refine ⟨_, _, _, _, rfl, hminlat, hminlatle, ?_, ?_, hmaxlat, hmaxlatle, ?_, ?_⟩
  · rcases List.mem_map.1 (listMin_mem hlonne) with ⟨q, hq, hq2⟩
    exact ⟨q, hq, hq2⟩
  · intro q hq
    exact listMin_le q.2 (List.mem_map_of_mem Prod.snd hq)
  · rcases List.mem_map.1 (listMax_mem hlonne) with ⟨q, hq, hq2⟩
    exact ⟨q, hq, hq2⟩
  · intro q hq
    exact listMax_le q.2 (List.mem_map_of_mem Prod.snd hq)

/-- Witness for C1 at the concrete points `[(0, 10), (5, 20)]`. -/
theorem bounding_box_exact_when_not_crossing_witness :
    ∃ a b c d, bounding_box_for_points [((0 : ℚ), (10 : ℚ)), (5, 20)] = some (a, b, c, d) ∧
      (∃ q ∈ [((0 : ℚ), (10 : ℚ)), (5, 20)], q.1 = a) ∧
      (∀ q ∈ [((0 : ℚ), (10 : ℚ)), (5, 20)], a ≤ q.1) ∧
      (∃ q ∈ [((0 : ℚ), (10 : ℚ)), (5, 20)], q.2 = b) ∧
      (∀ q ∈ [((0 : ℚ), (10 : ℚ)), (5, 20)], b ≤ q.2) ∧
      (∃ q ∈ [((0 : ℚ), (10 : ℚ)), (5, 20)], q.1 = c) ∧
      (∀ q ∈ [((0 : ℚ), (10 : ℚ)), (5, 20)], q.1 ≤ c) ∧
      (∃ q ∈ [((0 : ℚ), (10 : ℚ)), (5, 20)], q.2 = d) ∧
      (∀ q ∈ [((0 : ℚ), (10 : ℚ)), (5, 20)], q.2 ≤ d) := by
  apply bounding_box_exact_when_not_crossing
  · intro q hq
    simp only [List.mem_cons, List.not_mem_nil, or_false] at hq
    rcases hq with rfl | rfl <;> norm_num
  · intro q hq r hr
    simp only [List.mem_cons, List.not_mem_nil, or_false] at hq hr
    rcases hq with rfl | rfl <;> rcases hr with rfl | rfl <;> norm_num

/-- C2: if the sorted normalized longitudes contain an adjacent gap exceeding 180°,
`bounding_box_for_points` returns a box whose minimum longitude strictly exceeds its
maximum longitude, and the longitude range excludes an arc at least as wide as every
adjacent gap (the box spans from just after the largest gap to just before it). -/
theorem bounding_box_signals_crossing (p : ℚ × ℚ) (ps : List (ℚ × ℚ)) (i : ℕ)
    (h1 : 1 ≤ i) (h2 : i < (sorted_longs (p :: ps)).length)
    (hgap : 180 < (sorted_longs (p :: ps)).getD i 0 - (sorted_longs (p :: ps)).getD (i - 1) 0) :
    ∃ a b c d, bounding_box_for_points (p :: ps) = some (a, b, c, d) ∧ d < b ∧
      ∀ j, 1 ≤ j → j < (sorted_longs (p :: ps)).length →
        (sorted_longs (p :: ps)).getD j 0 - (sorted_longs (p :: ps)).getD (j - 1) 0 ≤ b - d := by
  have hsorted := sorted_longs_sorted (p :: ps)
  have hne : sorted_longs (p :: ps) ≠ [] := List.ne_nil_of_length_pos (by omega)
  have hcross : 180 < (sorted_longs (p :: ps)).getLastD 0 - (sorted_longs (p :: ps)).headD 0 := by
    rw [headD_eq_getD, getLastD_eq_getD]
    have e1 : (sorted_longs (p :: ps)).getD i 0 ≤
        (sorted_longs (p :: ps)).getD ((sorted_longs (p :: ps)).length - 1) 0 :=
      sorted_getD_mono hsorted (by omega) (by omega)
    have e2 : (sorted_longs (p :: ps)).getD 0 0 ≤ (sorted_longs (p :: ps)).getD (i - 1) 0 :=
      sorted_getD_mono hsorted (by omega) (by omega)
    linarith
  have hmem_i : ((sorted_longs (p :: ps)).getD i 0 - (sorted_longs (p :: ps)).getD (i - 1) 0, i) ∈
      gapPairs (sorted_longs (p :: ps)) := mem_gapPairs.2 ⟨i, h1, h2, rfl⟩
  obtain ⟨x, xs, hxx⟩ : ∃ x xs, gapPairs (sorted_longs (p :: ps)) = x :: xs := by
    cases hgp : gapPairs (sorted_longs (p :: ps)) with
    | nil => rw [hgp] at hmem_i; cases hmem_i
    | cons x xs => exact ⟨x, xs, rfl⟩
  have hmaxmem : pairsMax (gapPairs (sorted_longs (p :: ps))) ∈
      gapPairs (sorted_longs (p :: ps)) := by
    rw [hxx]; exact pairsMax_mem x xs
  obtain ⟨g, hg1, hg2, hgeq⟩ := mem_gapPairs.1 hmaxmem
  have hmax_ge : ∀ q ∈ gapPairs (sorted_longs (p :: ps)),
      q.1 ≤ (pairsMax (gapPairs (sorted_longs (p :: ps)))).1 := by
    intro q hq
    rw [hxx] at hq ⊢
    exact pairsMax_fst_ge x xs q hq
  have hidx : (pairsMax (gapPairs (sorted_longs (p :: ps)))).2 = g := by rw [hgeq]
  have hfst : (pairsMax (gapPairs (sorted_longs (p :: ps)))).1 =
      (sorted_longs (p :: ps)).getD g 0 - (sorted_longs (p :: ps)).getD (g - 1) 0 := by
    rw [hgeq]
  have hb : listMin ((sorted_longs (p :: ps)).drop (pairsMax (gapPairs (sorted_longs (p :: ps)))).2) =
      (sorted_longs (p :: ps)).getD g 0 := by
    rw [hidx]
    exact listMin_drop_sorted hsorted hg2
  have hd' : listMax ((sorted_longs (p :: ps)).take (pairsMax (gapPairs (sorted_longs (p :: ps)))).2) =
      (sorted_longs (p :: ps)).getD (g - 1) 0 := by
    rw [hidx]
    exact listMax_take_sorted hsorted hg1 (le_of_lt hg2)
  have hgap_g : 180 < (sorted_longs (p :: ps)).getD g 0 - (sorted_longs (p :: ps)).getD (g - 1) 0 := by
    have := hmax_ge _ hmem_i
    rw [hfst] at this
    simp only at this
    linarith
  refine ⟨_, _, _, _, bounding_box_eq_cross p ps hcross, ?_, ?_⟩
  · rw [hb, hd']
    linarith
  · intro j hj1 hj2
    rw [hb, hd']
    have := hmax_ge _ (mem_gapPairs.2 ⟨j, hj1, hj2, rfl⟩)
    rw [hfst] at this
    simp only at this
    linarith

/-- Witness for C2 at the concrete points `[(0, 170), (0, -170)]` with gap index 1. -/
theorem bounding_box_signals_crossing_witness :
    ∃ a b c d, bounding_box_for_points [((0 : ℚ), (170 : ℚ)), (0, -170)] = some (a, b, c, d) ∧
      d < b ∧
      ∀ j, 1 ≤ j → j < (sorted_longs [((0 : ℚ), (170 : ℚ)), (0, -170)]).length →
        (sorted_longs [((0 : ℚ), (170 : ℚ)), (0, -170)]).getD j 0 -
          (sorted_longs [((0 : ℚ), (170 : ℚ)), (0, -170)]).getD (j - 1) 0 ≤ b - d := by
  apply bounding_box_signals_crossing ((0 : ℚ), (170 : ℚ)) [(0, -170)] 1
  · exact le_refl 1
  · rw [show (sorted_longs [((0 : ℚ), (170 : ℚ)), (0, -170)]).length = 2 from by
      rw [sorted_longs_length]; rfl]
    omega
  · rw [show (sorted_longs [((0 : ℚ), (170 : ℚ)), (0, -170)]).getD 1 0 = 170 from by
        with_unfolding_all rfl,
      show (sorted_longs [((0 : ℚ), (170 : ℚ)), (0, -170)]).getD (1 - 1) 0 = -170 from by
        with_unfolding_all rfl]
    norm_num

/-- C10: for every non-empty list of points, whichever longitude branch is taken, the
first and third components of `bounding_box_for_points` are exactly the true minimum and
maximum latitude of the input points. -/
theorem bounding_box_latitude_exact (p : ℚ × ℚ) (ps : List (ℚ × ℚ)) :
    ∃ a b c d, bounding_box_for_points (p :: ps) = some (a, b, c, d) ∧
      (∃ q ∈ p :: ps, q.1 = a) ∧ (∀ q ∈ p :: ps, a ≤ q.1) ∧
      (∃ q ∈ p :: ps, q.1 = c) ∧ (∀ q ∈ p :: ps, q.1 ≤ c) := by
  obtain ⟨hminlat, hminlatle, hmaxlat, hmaxlatle⟩ := lat_bound_facts p ps
  by_cases h : 180 < (sorted_longs (p :: ps)).getLastD 0 - (sorted_longs (p :: ps)).headD 0
  · rw [bounding_box_eq_cross p ps h]
    exact ⟨_, _, _, _, rfl, hminlat, hminlatle, hmaxlat, hmaxlatle⟩
  · rw [bounding_box_eq_nocross p ps h]
    exact ⟨_, _, _, _, rfl, hminlat, hminlatle, hmaxlat, hmaxlatle⟩

/-- C3 (amended): `make_map` widens the computed box by a one-degree margin on every
side and uses the widened box as the rendering extent, but its central-longitude check
is performed on the widened box: the central longitude is 180 precisely when the
computed box's minimum longitude exceeds its maximum longitude by more than 2 degrees,
and 0 otherwise (in particular 0 for every non-crossing box). -/
theorem central_longitude_checks_widened_box (pts : List (ℚ × ℚ)) (a b c d : ℚ)
    (h : bounding_box_for_points pts = some (a, b, c, d)) :
    central_longitude pts = some (if d + 2 < b then (180 : ℚ) else 0) ∧
    map_extent pts = some (b - 1, d + 1, a - 1, c + 1) := by
  rw [central_longitude, map_extent, h]
  constructor
  · simp only [Option.map_some', bigger_box]
    congr 1
    apply if_congr _ rfl rfl
    constructor <;> intro <;> linarith
  · simp [bigger_box]

/-- Witness for the amended C3 at the points `[(0, 170), (0, -170)]`, whose box
crosses the date line with a longitude overshoot of 340 degrees. -/
theorem central_longitude_checks_widened_box_witness :
    central_longitude [((0 : ℚ), (170 : ℚ)), (0, -170)] = some 180 ∧
    map_extent [((0 : ℚ), (170 : ℚ)), (0, -170)] = some (169, -169, -1, 1) := by
  have h := central_longitude_checks_widened_box [((0 : ℚ), (170 : ℚ)), (0, -170)]
    0 170 0 (-170) (by with_unfolding_all rfl)
  norm_num at h
  exact h

/-- The 92 points `(0, -90), (0, -88), …, (0, 92)`: their normalized longitudes span
182 degrees, so the date-line branch fires, yet every adjacent gap is only 2 degrees. -/
def pts92 : List (ℚ × ℚ) := (List.range 92).map (fun i => ((0 : ℚ), -90 + 2 * (i : ℚ)))

set_option maxRecDepth 20000 in
/-- Counterexample to C3 as stated: on `pts92` the bounding box signals a date-line
crossing (minimum longitude 92 exceeds maximum longitude 90), yet `make_map` keeps the
central longitude at 0 because after the one-degree widening the check
`bigger_box[1] > bigger_box[3]` (i.e. `91 > 91`) fails. -/
theorem central_longitude_zero_despite_crossing :
    bounding_box_for_points pts92 = some (0, 92, 0, 90) ∧ (90 : ℚ) < 92 ∧
    central_longitude pts92 = some 0 := by
  refine ⟨by with_unfolding_all rfl, by norm_num, by with_unfolding_all rfl⟩

/-- C4 (amended): the normalization of `bounding_box_for_points` maps a longitude into
`[-180, 180]` exactly when the input longitude lies in `[-180, 540]`; in particular all
normalized longitudes lie in `[-180, 180]` whenever all input longitudes do at the start,
but inputs below -180 or above 540 stay outside that interval. -/
theorem longitudes_range_iff (pts : List (ℚ × ℚ)) (q : ℚ × ℚ) (hq : q ∈ pts) :
    (-180 ≤ normalize_lon q.2 ∧ normalize_lon q.2 ≤ 180) ↔ (-180 ≤ q.2 ∧ q.2 ≤ 540) := by
  have hmem : normalize_lon q.2 ∈ longitudes pts := by
    rw [longitudes]
    exact List.mem_map_of_mem _ hq
  rw [normalize_lon]
  split <;> constructor <;> intro hh <;> constructor <;> linarith [hh.1, hh.2]

/-- Witness for the amended C4 at the point `(0, 350)`, whose normalized longitude
is `-10 ∈ [-180, 180]`. -/
theorem longitudes_range_iff_witness :
    (-180 ≤ normalize_lon ((0 : ℚ), (350 : ℚ)).2 ∧ normalize_lon ((0 : ℚ), (350 : ℚ)).2 ≤ 180) ∧
    normalize_lon ((0 : ℚ), (350 : ℚ)).2 = -10 := by
  constructor
  · exact (longitudes_range_iff [((0 : ℚ), (350 : ℚ))] _ (List.mem_singleton.2 rfl)).2
      (by norm_num)
  · rw [normalize_lon]
    norm_num

/-- Counterexample to C4 as stated: the input longitude -200 is left at -200 by the
normalization (only longitudes above 180 are shifted), so it does not land in
`[-180, 180]`, and `bounding_box_for_points` returns it unchanged. -/
theorem longitudes_not_normalized_below :
    longitudes [((0 : ℚ), -200)] = [-200] ∧ ¬ (-180 : ℚ) ≤ -200 ∧
    bounding_box_for_points [((0 : ℚ), -200)] = some (0, -200, 0, -200) := by
  refine ⟨by with_unfolding_all rfl, by norm_num, by with_unfolding_all rfl⟩

/-- C6 (code bug): `make_map` guards the city marker with Python truthiness
(`if lat and lon:`), so a city with latitude exactly 0 (or longitude exactly 0) gets no
marker even though real coordinates were passed in, while any nonzero pair does. -/
theorem make_map_marker_skipped_at_zero :
    make_map_marker_drawn (some 0) (some 50) = false ∧
    make_map_marker_drawn (some 10) (some 50) = true ∧
    make_map_marker_drawn none none = false := by
  refine ⟨by with_unfolding_all rfl, by with_unfolding_all rfl, rfl⟩

/-! Background synthesis in `build_deck.py` (`create_background_map`). -/

/-- A raster image: PIL size `(width, height)` plus RGBA pixel rows. -/
structure RasterImage where
  size : ℕ × ℕ
  pixels : List (List (ℚ × ℚ × ℚ × ℚ))
deriving DecidableEq

/-- Python `collections.Counter(...).most_common(1)[0][0]`: a value with the highest count;
ties go to the earliest-inserted value (Python dicts preserve insertion order and
`most_common` sorts stably), which the fold reproduces by replacing the current best
only on a strictly larger count. `none` models the `IndexError` on an empty input. -/
def mostCommonSize : List (ℕ × ℕ) → Option (ℕ × ℕ)
  | [] => none
  | s :: ss =>
    some (ss.foldl
      (fun best c => if (s :: ss).count best < (s :: ss).count c then c else best) s)

/-- Model of `np.median` along the stacked axis: sort the samples and average the two middle
ones (which coincide for an odd sample count). -/
def medianQ (l : List ℚ) : ℚ :=
  let s := List.insertionSort (· ≤ ·) l
  (s.getD ((s.length - 1) / 2) 0 + s.getD (s.length / 2) 0) / 2

/-- Lines 233-235 of `build_deck.py`: per-pixel, per-channel median of the stacked
equally-sized RGBA images. -/
def compositeImage (common_size : ℕ × ℕ) (kept : List RasterImage) :
    List (List (ℚ × ℚ × ℚ × ℚ)) :=
  (List.range common_size.2).map fun y =>
    (List.range common_size.1).map fun x =>
      (medianQ (kept.map fun img => ((img.pixels.getD y []).getD x (0, 0, 0, 0)).1),
       medianQ (kept.map fun img => ((img.pixels.getD y []).getD x (0, 0, 0, 0)).2.1),
       medianQ (kept.map fun img => ((img.pixels.getD y []).getD x (0, 0, 0, 0)).2.2.1),
       medianQ (kept.map fun img => ((img.pixels.getD y []).getD x (0, 0, 0, 0)).2.2.2))

/-- The observable outcome of `create_background_map`: the `IndexError` Python raises
on an empty input (`most_common(1)[0]`), the `None`-with-warning path, or a saved
composite image. -/
inductive BackgroundResult where
  | indexError : BackgroundResult
  | noBackground : BackgroundResult
  | composite : List (List (ℚ × ℚ × ℚ × ℚ)) → BackgroundResult
deriving DecidableEq

/-- Lines 226-238 of `build_deck.py`, `create_background_map`. -/
def create_background_map (raster_maps : List RasterImage) : BackgroundResult :=
  match mostCommonSize (raster_maps.map RasterImage.size) with
  | none => .indexError
  | some common_size =>
    let kept := raster_maps.filter (fun i => i.size == common_size)
    if kept.length = 1 then .noBackground
    else .composite (compositeImage common_size kept)

lemma foldl_choice_mem {α : Type} (f : α → α → α) (hf : ∀ b c, f b c = b ∨ f b c = c)
    (xs : List α) (b : α) : xs.foldl f b = b ∨ xs.foldl f b ∈ xs := by
  induction xs generalizing b with
  | nil => exact Or.inl rfl
  | cons y ys ih =>
    rcases ih (f b y) with h | h
    · rcases hf b y with hc | hc
      · exact Or.inl (by rw [List.foldl_cons, h, hc])
      · exact Or.inr (by rw [List.foldl_cons, h, hc]; exact List.mem_cons_self y ys)
    · exact Or.inr (List.mem_cons_of_mem y (by rw [List.foldl_cons]; exact h))

lemma mostCommonSize_mem {l : List (ℕ × ℕ)} {c : ℕ × ℕ} (h : mostCommonSize l = some c) :
    c ∈ l := by
  match l with
  | [] => cases h
  | s :: ss =>
    rw [mostCommonSize, Option.some.injEq] at h
    rcases foldl_choice_mem
        (fun best c => if (s :: ss).count best < (s :: ss).count c then c else best)
        (fun b c => by
          by_cases hbc : (s :: ss).count b < (s :: ss).count c
          · exact Or.inr (if_pos hbc)
          · exact Or.inl (if_neg hbc))
        ss s with h' | h'
    · rw [← h, h']; exact List.mem_cons_self s ss
    · rw [← h]; exact List.mem_cons_of_mem s h'

/-- C5 (amended): on every nonempty image list, `create_background_map` keeps exactly
the images whose size equals the most common size (so at least one image always
survives), returns the no-background warning value precisely when fewer than two
survive (which for a nonempty input means exactly one), composites the survivors
otherwise, and never raises. -/
theorem create_background_map_filters_and_warns (m : RasterImage) (ms : List RasterImage) :
    ∃ c, mostCommonSize ((m :: ms).map RasterImage.size) = some c ∧
      1 ≤ ((m :: ms).filter (fun i => i.size == c)).length ∧
      (create_background_map (m :: ms) = .noBackground ↔
        ((m :: ms).filter (fun i => i.size == c)).length < 2) ∧
      (2 ≤ ((m :: ms).filter (fun i => i.size == c)).length →
        create_background_map (m :: ms) =
          .composite (compositeImage c ((m :: ms).filter (fun i => i.size == c)))) ∧
      create_background_map (m :: ms) ≠ .indexError := by
  have hmap : (m :: ms).map RasterImage.size = m.size :: ms.map RasterImage.size :=
    List.map_cons _ _ _
  obtain ⟨c, hc⟩ : ∃ c, mostCommonSize ((m :: ms).map RasterImage.size) = some c := by
    rw [hmap, mostCommonSize]
    exact ⟨_, rfl⟩
  have hcmem : c ∈ (m :: ms).map RasterImage.size := mostCommonSize_mem hc
  rcases List.mem_map.1 hcmem with ⟨img, himg, himgsz⟩
  have hkeptpos : 1 ≤ ((m :: ms).filter (fun i => i.size == c)).length := by
    have : img ∈ (m :: ms).filter (fun i => i.size == c) :=
      List.mem_filter.2 ⟨himg, by rw [himgsz]; exact beq_self_eq_true c⟩
    have := List.length_pos.2 (List.ne_nil_of_mem this)
    omega
  have hunfold : create_background_map (m :: ms) =
      if ((m :: ms).filter (fun i => i.size == c)).length = 1 then .noBackground
      else .composite (compositeImage c ((m :: ms).filter (fun i => i.size == c))) := by
    rw [create_background_map, hc]
  refine ⟨c, hc, hkeptpos, ?_, ?_, ?_⟩
  · rw [hunfold]
    split
    · rename_i h
      simp only [true_iff]
      omega
    · rename_i h
      constructor
      · intro hcontr
        cases hcontr
      · intro hlt
        omega
  · intro h2
    rw [hunfold, if_neg (by omega)]
  · rw [hunfold]
    split <;> intro hcontr <;> cases hcontr

/-- Witness for the amended C5 on three concrete 1×1/2×2 images: the odd-sized image
is discarded and the remaining two are composited by per-channel median. -/
theorem create_background_map_filters_and_warns_witness :
    create_background_map
        [⟨(1, 1), [[(10, 10, 10, 255)]]⟩, ⟨(1, 1), [[(30, 30, 30, 255)]]⟩,
         ⟨(2, 2), [[(0, 0, 0, 0), (0, 0, 0, 0)], [(0, 0, 0, 0), (0, 0, 0, 0)]]⟩] =
      .composite [[(20, 20, 20, 255)]] := by
  obtain ⟨c, hc, hpos, hiff, hcomp, hnoerr⟩ :=
    create_background_map_filters_and_warns ⟨(1, 1), [[(10, 10, 10, 255)]]⟩
      [⟨(1, 1), [[(30, 30, 30, 255)]]⟩,
       ⟨(2, 2), [[(0, 0, 0, 0), (0, 0, 0, 0)], [(0, 0, 0, 0), (0, 0, 0, 0)]]⟩]
  have hc' : c = (1, 1) := by
    rw [show mostCommonSize
        ([⟨(1, 1), [[(10, 10, 10, 255)]]⟩, ⟨(1, 1), [[(30, 30, 30, 255)]]⟩,
          (⟨(2, 2), [[(0, 0, 0, 0), (0, 0, 0, 0)], [(0, 0, 0, 0), (0, 0, 0, 0)]]⟩ :
            RasterImage)].map RasterImage.size) = some ((1 : ℕ), (1 : ℕ)) from rfl] at hc
    exact (Option.some_inj.1 hc).symm
  subst hc'
  rw [hcomp (by with_unfolding_all rfl)]
  congr 1
  with_unfolding_all rfl

/-- Counterexample to C5 as stated: on an empty image list (zero images remain after
filtering, hence "fewer than two"), `create_background_map` raises an `IndexError`
instead of returning the no-background value. -/
theorem create_background_map_empty_raises :
    create_background_map [] = .indexError ∧
    create_background_map [] ≠ .noBackground := by
  exact ⟨rfl, by intro h; cases h⟩

/-! Temporal filtering of subdivisions in `build_deck.py`. -/

/-- A Python `datetime.date`, compared lexicographically. -/
structure WDate where
  year : ℤ
  month : ℕ
  day : ℕ
deriving DecidableEq

/-- Python `<` on `datetime.date`. -/
def WDate.ltb (a b : WDate) : Bool :=
  decide (a.year < b.year ∨ (a.year = b.year ∧
    (a.month < b.month ∨ (a.month = b.month ∧ a.day < b.day))))

/-- Python `<=` on `datetime.date`. -/
def WDate.leb (a b : WDate) : Bool := a.ltb b || a == b

lemma wdate_ltb_eq_false_iff (a b : WDate) : WDate.ltb a b = false ↔ WDate.leb b a = true := by
  obtain ⟨ay, am, ad⟩ := a
  obtain ⟨by', bm, bd⟩ := b
  rw [WDate.ltb, WDate.leb, WDate.ltb]
  simp only [decide_eq_false_iff_not, Bool.or_eq_true, decide_eq_true_eq, beq_iff_eq,
    WDate.mk.injEq]
  constructor
  · intro h
    push_neg at h
    by_cases hy : by' = ay
    · subst hy
      by_cases hm : bm = am
      · subst hm
        rcases Nat.lt_or_ge bd ad with hd | hd
        · exact Or.inl (by omega)
        · exact Or.inr ⟨rfl, rfl, by omega⟩
      · exact Or.inl (by omega)
    · exact Or.inl (by omega)
  · intro h
    rcases h with h | ⟨h1, h2, h3⟩
    · omega
    · subst h1; subst h2; subst h3
      omega

/-- The raw value a time property may hold on an entity: absent (`entity.get` returns
`None`), a bare integer year, a full date, or a value the wikidata package fails to
parse (raising `DatavalueError`). -/
inductive TimePropValue where
  | absent : TimePropValue
  | yearOnly : ℤ → TimePropValue
  | date : WDate → TimePropValue
  | malformed : TimePropValue
deriving DecidableEq

/-- Lines 47-60 of `build_deck.py`, `try_get_time_property`: an `int` year becomes
January 1 of that year; a `DatavalueError` is caught and, like an absent property,
yields `None`. -/
def try_get_time_property : TimePropValue → Option WDate
  | .absent => none
  | .yearOnly y => some ⟨y, 1, 1⟩
  | .date d => some d
  | .malformed => none

/-- A subdivision entity with its four time properties
(P571 inception, P580 start time, P576 dissolved, P582 end time). -/
structure Subdivision where
  id : ℕ
  inception : TimePropValue
  start_time : TimePropValue
  dissolved : TimePropValue
  end_time : TimePropValue
deriving DecidableEq

/-- Python `x and x > date` for an optional date `x` (`None` is falsy; a date object
is always truthy). -/
def afterDate (x : Option WDate) (d : WDate) : Bool :=
  match x with
  | none => false
  | some t => WDate.ltb d t

/-- Python `x and x < date` for an optional date `x`. -/
def beforeDate (x : Option WDate) (d : WDate) : Bool :=
  match x with
  | none => false
  | some t => WDate.ltb t d

/-- Lines 152-167 of `build_deck.py`, `get_subdivisions`, with an explicit reference date
(the Python default is `datetime.date.today()`); a subdivision is skipped when one of
its parsed bounds places it outside the reference date. -/
def get_subdivisions (subdivisions : List Subdivision) (date : WDate) : List Subdivision :=
  subdivisions.filter (fun s =>
    !(afterDate (try_get_time_property s.inception) date
      || afterDate (try_get_time_property s.start_time) date
      || beforeDate (try_get_time_property s.dissolved) date
      || beforeDate (try_get_time_property s.end_time) date))

/-- Specification-side predicate: the validity window of a subdivision contains the
reference date — every present (parsed) start bound is on or before the date and every
present end bound is on or after it; a subdivision with no bounds always qualifies. -/
def validity_window_contains (s : Subdivision) (d : WDate) : Prop :=
  (∀ t, try_get_time_property s.inception = some t → t.leb d = true) ∧
  (∀ t, try_get_time_property s.start_time = some t → t.leb d = true) ∧
  (∀ t, try_get_time_property s.dissolved = some t → d.leb t = true) ∧
  (∀ t, try_get_time_property s.end_time = some t → d.leb t = true)

lemma afterDate_eq_false_iff (x : Option WDate) (d : WDate) :
    afterDate x d = false ↔ ∀ t, x = some t → t.leb d = true := by
  cases x with
  | none => simp [afterDate]
  | some t =>
    rw [afterDate]
    simp only [Option.some.injEq]
    constructor
    · intro h u hu
      subst hu
      exact (wdate_ltb_eq_false_iff d t).1 h
    · intro h
      exact (wdate_ltb_eq_false_iff d t).2 (h t rfl)

lemma beforeDate_eq_false_iff (x : Option WDate) (d : WDate) :
    beforeDate x d = false ↔ ∀ t, x = some t → d.leb t = true := by
  cases x with
  | none => simp [beforeDate]
  | some t =>
    rw [beforeDate]
    simp only [Option.some.injEq]
    constructor
    · intro h u hu
      subst hu
      exact (wdate_ltb_eq_false_iff t d).1 h
    · intro h
      exact (wdate_ltb_eq_false_iff t d).2 (h t rfl)

/-- C7: for every parent's subdivision list and every reference date,
`get_subdivisions` yields exactly the subdivisions whose validity window contains the
date: no parsed bounds means always included, a parsed inception/start after the date
or dissolution/end before it means excluded, and `try_get_time_property` turns a bare
year into January 1 of that year by construction. -/
theorem get_subdivisions_exactly_valid (subdivisions : List Subdivision) (d : WDate)
    (s : Subdivision) :
    s ∈ get_subdivisions subdivisions d ↔ s ∈ subdivisions ∧ validity_window_contains s d := by
  rw [get_subdivisions, List.mem_filter]
  apply and_congr_right
  intro _
  rw [validity_window_contains]
  simp only [Bool.not_eq_true', Bool.or_eq_false_iff]
  rw [afterDate_eq_false_iff, afterDate_eq_false_iff, beforeDate_eq_false_iff,
    beforeDate_eq_false_iff]
  tauto

/-! Deck and note identifiers in `build_deck.py`. -/

/-- The command-line arguments of `build_deck.py` (lines 569-575). -/
structure Args where
  region : String
  language : String
  cities : Bool
  image_folder : Option String
  log_level : String
deriving DecidableEq

/-- Line 565 of `build_deck.py`. -/
def DECK_ID_BASE : ℤ := 1290639408

/-- Lines 596-600 of `build_deck.py`: `'--'.join([region, language, mode])`. -/
def hash_material (a : Args) : String :=
  a.region ++ "--" ++ a.language ++ "--" ++ (if a.cities then "cities" else "subdivisions")

/-- Lines 601-604 of `build_deck.py`: `possible_ids[(DECK_ID_BASE + region_hashsum) % len(possible_ids)]`
with `possible_ids = range(1 << 30, 1 << 31)` (length `2^30`), where `region_hashsum`
is the int32 sum over the SHA-512 digest of the material — an external deterministic
function of the string, abstracted as `sha`. Python `%` on a positive modulus matches
`Int.emod`'s sign behaviour for this use. -/
def deck_id (sha : String → ℤ) (a : Args) : ℤ :=
  (1 <<< 30 : ℤ) + (DECK_ID_BASE + sha (hash_material a)) % (1 <<< 30 : ℤ)

/-- An argument to the variadic `genanki.guid_for`. -/
inductive GuidArg where
  | nat : ℕ → GuidArg
  | str : String → GuidArg
deriving DecidableEq

/-- Lines 699-708 of `build_deck.py`: the fields of a `RegionSubdivisionNote`, in order. -/
def region_subdivision_note_fields (subdivision_label region_label capital_label
    subdivision_map_img region_map_img wikidata_id language wikipedia_link : String) :
    List String :=
  [subdivision_label, region_label, capital_label, subdivision_map_img, region_map_img,
   wikidata_id, language, wikipedia_link]

/-- Lines 646-660 of `build_deck.py`: the fields of a `RegionCityNote`, in order. -/
def region_city_note_fields (city_label region_label superdivision_label population
    population_readable population_rank city_map_img region_map_img wikidata_id language
    wikipedia_link latitude longitude : String) : List String :=
  [city_label, region_label, superdivision_label, population, population_readable,
   population_rank, city_map_img, region_map_img, wikidata_id, language, wikipedia_link,
   latitude, longitude]

/-- Line 562 of `build_deck.py`, `RegionSubdivisionNote.guid`:
`genanki.guid_for(*self.fields[5:7])`; `guid_for` lives in the external genanki
library and is abstracted as `guidFor`. -/
def region_subdivision_note_guid (guidFor : List GuidArg → ℤ) (fields : List String) : ℤ :=
  guidFor (((fields.drop 5).take 2).map GuidArg.str)

/-- Line 413 of `build_deck.py`, `RegionCityNote.guid`:
`genanki.guid_for(self.model.model_id, self.fields[8], self.fields[9])`. -/
def region_city_note_guid (guidFor : List GuidArg → ℤ) (model_id : ℕ)
    (fields : List String) : ℤ :=
  guidFor [GuidArg.nat model_id, GuidArg.str (fields.getD 8 ""), GuidArg.str (fields.getD 9 "")]

/-- C8: for any deterministic hash functions, two runs agreeing on region, language
and mode compute the same deck identifier whatever the image folder or log level; a
subdivision note's guid depends only on the wikidata identifier and the locale; a city
note's guid depends only on the model identifier, the wikidata identifier and the
locale — all other fields (labels, capitals, populations, ranks, image references,
links, coordinates) never influence the identifiers. -/
theorem deck_and_note_ids_deterministic (sha : String → ℤ) (guidFor : List GuidArg → ℤ)
    (a1 a2 : Args) (h1 : a1.region = a2.region) (h2 : a1.language = a2.language)
    (h3 : a1.cities = a2.cities)
    (wid_s lang_s wid_c lang_c : String) (model_id : ℕ)
    (sl1 rl1 cl1 smi1 rmi1 wl1 sl2 rl2 cl2 smi2 rmi2 wl2 : String)
    (cy1 cr1 sd1 pop1 popr1 rank1 cmi1 crm1 cwl1 lat1 lon1
     cy2 cr2 sd2 pop2 popr2 rank2 cmi2 crm2 cwl2 lat2 lon2 : String) :
    deck_id sha a1 = deck_id sha a2 ∧
    region_subdivision_note_guid guidFor
        (region_subdivision_note_fields sl1 rl1 cl1 smi1 rmi1 wid_s lang_s wl1) =
      region_subdivision_note_guid guidFor
        (region_subdivision_note_fields sl2 rl2 cl2 smi2 rmi2 wid_s lang_s wl2) ∧
    region_city_note_guid guidFor model_id
        (region_city_note_fields cy1 cr1 sd1 pop1 popr1 rank1 cmi1 crm1 wid_c
          lang_c cwl1 lat1 lon1) =
      region_city_note_guid guidFor model_id
        (region_city_note_fields cy2 cr2 sd2 pop2 popr2 rank2 cmi2 crm2 wid_c
          lang_c cwl2 lat2 lon2) := by
  refine ⟨?_, rfl, rfl⟩
  rw [deck_id, deck_id, hash_material, hash_material, h1, h2, h3]

/-- Witness for C8 with concrete hash functions and two argument sets differing only
in image folder and log level. -/
theorem deck_and_note_ids_deterministic_witness :
    deck_id (fun s => (s.length : ℤ))
        ⟨"Q30", "en", false, none, "INFO"⟩ =
      deck_id (fun s => (s.length : ℤ))
        ⟨"Q30", "en", false, some "imgs", "DEBUG"⟩ ∧
    region_subdivision_note_guid (fun l => (l.length : ℤ))
        (region_subdivision_note_fields "Alabama" "United States" "Montgomery" "a.png"
          "b.png" "Q173" "en" "https://en.wikipedia.org/wiki/Alabama") =
      region_subdivision_note_guid (fun l => (l.length : ℤ))
        (region_subdivision_note_fields "Alabama (state)" "USA" "" "c.png" "d.png"
          "Q173" "en" "https://en.wikipedia.org/wiki/Alabama_(state)") ∧
    region_city_note_guid (fun l => (l.length : ℤ)) 2056101586
        (region_city_note_fields "NYC" "USA" "New York" "8804190" "8.8M" "1" "e.png"
          "f.png" "Q60" "en" "link1" "40.7" "-74.0") =
      region_city_note_guid (fun l => (l.length : ℤ)) 2056101586
        (region_city_note_fields "New York City" "United States" "NY State" "8000000"
          "8.0M" "2" "g.png" "h.png" "Q60" "en" "link2" "40.71" "-74.01") := by
  exact deck_and_note_ids_deterministic (fun s => (s.length : ℤ)) (fun l => (l.length : ℤ))
    ⟨"Q30", "en", false, none, "INFO"⟩ ⟨"Q30", "en", false, some "imgs", "DEBUG"⟩
    rfl rfl rfl "Q173" "en" "Q60" "en" 2056101586
    "Alabama" "United States" "Montgomery" "a.png" "b.png"
    "https://en.wikipedia.org/wiki/Alabama"
    "Alabama (state)" "USA" "" "c.png" "d.png"
    "https://en.wikipedia.org/wiki/Alabama_(state)"
    "NYC" "USA" "New York" "8804190" "8.8M" "1" "e.png" "f.png" "link1" "40.7" "-74.0"
    "New York City" "United States" "NY State" "8000000" "8.0M" "2" "g.png" "h.png"
    "link2" "40.71" "-74.01"

/-! Locale fallback resolution in `build_deck.py`.

A locale string is modelled as its nonempty list of dash-separated components
("pt-BR" ↦ `["pt", "BR"]`), so Python `'-' in language` is "the list has at least two
components" and `language.split('-')[0]` is the singleton of the first component;
`none` is Python `None`. -/

/-- Termination measure for `try_get_label_in`. -/
def localeRank : Option (List String) → ℕ
  | none => 0
  | some l => l.length + 1

/-- Lines 77-88 of `build_deck.py`, `try_get_label_in`: `labels` maps a locale to the
entity's translation if present (`KeyError` otherwise), `defaultLabel` is the string
the wikidata library renders for `str(entity.label)`. -/
def try_get_label_in (labels : List String → Option String) (defaultLabel : String) :
    Option (List String) → String
  | none => defaultLabel
  | some language =>
    match labels language with
    | some label => label
    | none =>
      if h : 2 ≤ language.length then
        try_get_label_in labels defaultLabel (some [language.headD ""])
      else
        try_get_label_in labels defaultLabel none
termination_by l => localeRank l
decreasing_by
  · simp only [localeRank, List.length_singleton]
    omega
  · simp only [localeRank]
    omega

/-- Termination measure for `try_get_wikilink_in`. -/
def wikilinkRank : Option (List String) → ℕ
  | none => 0
  | some l => if l = ["en"] then 1 else if 2 ≤ l.length then 3 else 2

lemma wikilinkRank_lt_of_dash {l : List String} (h : 2 ≤ l.length) (x : String) :
    wikilinkRank (some [x]) < wikilinkRank (some l) := by
  have hne : l ≠ ["en"] := by
    intro he
    rw [he] at h
    simp at h
  simp only [wikilinkRank]
  rw [if_neg hne, if_pos h]
  by_cases hx : [x] = ["en"]
  · rw [if_pos hx]
    omega
  · rw [if_neg hx, if_neg (by simp : ¬ 2 ≤ [x].length)]
    omega

lemma wikilinkRank_none_lt (l : List String) : wikilinkRank none < wikilinkRank (some l) := by
  simp only [wikilinkRank]
  split_ifs <;> omega

lemma wikilinkRank_en_lt {l : List String} (h2 : ¬ 2 ≤ l.length) (hen : l ≠ ["en"]) :
    wikilinkRank (some ["en"]) < wikilinkRank (some l) := by
  simp only [wikilinkRank, if_true]
  rw [if_neg hen, if_neg h2]
  omega

/-- Lines 91-105 of `build_deck.py`, `try_get_wikilink_in`: `sitelinks` is the entity's
ordered sitelink table keyed by locale; the default branch takes the first sitelink's
url, and `.error` models the `StopIteration` Python raises there when an entity has no
sitelinks at all. -/
def try_get_wikilink_in (sitelinks : List (List String × String)) :
    Option (List String) → Except Unit String
  | none =>
    match sitelinks with
    | [] => .error ()
    | (_, url) :: _ => .ok url
  | some language =>
    match (sitelinks.find? (fun kv => kv.1 == language)).map Prod.snd with
    | some url => .ok url
    | none =>
      if h2 : 2 ≤ language.length then
        try_get_wikilink_in sitelinks (some [language.headD ""])
      else if hen : language = ["en"] then
        try_get_wikilink_in sitelinks none
      else
        try_get_wikilink_in sitelinks (some ["en"])
termination_by l => wikilinkRank l
decreasing_by
  · exact wikilinkRank_lt_of_dash h2 _
  · exact wikilinkRank_none_lt _
  · exact wikilinkRank_en_lt h2 hen

lemma try_get_label_in_none (labels : List String → Option String) (d : String) :
    try_get_label_in labels d none = d := by
  rw [try_get_label_in.eq_1]

lemma try_get_label_in_step (labels : List String → Option String) (d : String)
    (lang : List String) (h : labels lang = none) :
    try_get_label_in labels d (some lang) =
      if 2 ≤ lang.length then try_get_label_in labels d (some [lang.headD ""])
      else try_get_label_in labels d none := by
  rw [try_get_label_in.eq_2, h]
  by_cases hc : 2 ≤ lang.length
  · rw [dif_pos hc, if_pos hc]
  · rw [dif_neg hc, if_neg hc]

lemma try_get_wikilink_in_found (sitelinks : List (List String × String))
    (lang : List String) (url : String)
    (h : (sitelinks.find? (fun kv => kv.1 == lang)).map Prod.snd = some url) :
    try_get_wikilink_in sitelinks (some lang) = .ok url := by
  rw [try_get_wikilink_in.eq_3, h]

lemma try_get_wikilink_in_step (sitelinks : List (List String × String))
    (lang : List String)
    (h : (sitelinks.find? (fun kv => kv.1 == lang)).map Prod.snd = none) :
    try_get_wikilink_in sitelinks (some lang) =
      if 2 ≤ lang.length then try_get_wikilink_in sitelinks (some [lang.headD ""])
      else if lang = ["en"] then try_get_wikilink_in sitelinks none
      else try_get_wikilink_in sitelinks (some ["en"]) := by
  rw [try_get_wikilink_in.eq_3, h]
  by_cases hc : 2 ≤ lang.length
  · rw [dif_pos hc, if_pos hc]
  · rw [dif_neg hc, if_neg hc]
    by_cases hen : lang = ["en"]
    · rw [dif_pos hen, if_pos hen]
    · rw [dif_neg hen, if_neg hen]

lemma try_get_wikilink_in_ok_of_ne (sitelinks : List (List String × String))
    (hne : sitelinks ≠ []) (o : Option (List String)) :
    ∃ url, try_get_wikilink_in sitelinks o = Except.ok url := by
  obtain ⟨kv, tl, rfl⟩ := List.exists_cons_of_ne_nil hne
  obtain ⟨k, u⟩ := kv
  have hnone : ∃ url, try_get_wikilink_in ((k, u) :: tl) none = Except.ok url :=
    ⟨u, by rw [try_get_wikilink_in.eq_2]⟩
  have hen : ∃ url, try_get_wikilink_in ((k, u) :: tl) (some ["en"]) = Except.ok url := by
    cases hf : ((((k, u) :: tl)).find? (fun kv => kv.1 == ["en"])).map Prod.snd with
    | some url => exact ⟨url, try_get_wikilink_in_found _ _ _ hf⟩
    | none =>
      rw [try_get_wikilink_in_step _ _ hf,
        if_neg (by simp : ¬ 2 ≤ (["en"] : List String).length), if_pos rfl]
      exact hnone
  have hsingle : ∀ x : String,
      ∃ url, try_get_wikilink_in ((k, u) :: tl) (some [x]) = Except.ok url := by
    intro x
    cases hf : ((((k, u) :: tl)).find? (fun kv => kv.1 == [x])).map Prod.snd with
    | some url => exact ⟨url, try_get_wikilink_in_found _ _ _ hf⟩
    | none =>
      rw [try_get_wikilink_in_step _ _ hf,
        if_neg (by simp : ¬ 2 ≤ ([x] : List String).length)]
      by_cases hx : [x] = (["en"] : List String)
      · rw [if_pos hx]
        exact hnone
      · rw [if_neg hx]
        exact hen
  cases o with
  | none => exact hnone
  | some lang =>
    cases hf : ((((k, u) :: tl)).find? (fun kv => kv.1 == lang)).map Prod.snd with
    | some url => exact ⟨url, try_get_wikilink_in_found _ _ _ hf⟩
    | none =>
      rw [try_get_wikilink_in_step _ _ hf]
      by_cases h2 : 2 ≤ lang.length
      · rw [if_pos h2]
        exact hsingle _
      · rw [if_neg h2]
        by_cases hlen : lang = ["en"]
        · rw [if_pos hlen]
          exact hnone
        · rw [if_neg hlen]
          exact hen

/-- C9 (amended): label resolution always terminates and returns a string — when
neither the requested locale nor its base language (the region suffix stripped) has a
translation, it returns the default label without raising; wiki-link resolution
likewise terminates along the chain requested locale → base language → "en" → first
sitelink and returns a url without raising, provided the entity has at least one
sitelink (with none at all, the default branch raises `StopIteration`). -/
theorem locale_fallback_terminates_totally (labels : List String → Option String)
    (defaultLabel : String) (lang : List String)
    (h1 : labels lang = none) (h2 : labels [lang.headD ""] = none)
    (sitelinks : List (List String × String)) (hne : sitelinks ≠ [])
    (o : Option (List String)) :
    try_get_label_in labels defaultLabel (some lang) = defaultLabel ∧
    ∃ url, try_get_wikilink_in sitelinks o = Except.ok url := by
  constructor
  · rw [try_get_label_in_step _ _ _ h1]
    by_cases hc : 2 ≤ lang.length
    · rw [if_pos hc, try_get_label_in_step _ _ _ h2,
        if_neg (by simp : ¬ 2 ≤ ([lang.headD ""] : List String).length),
        try_get_label_in_none]
    · rw [if_neg hc, try_get_label_in_none]
  · exact try_get_wikilink_in_ok_of_ne sitelinks hne o

/-- Witness for the amended C9: an entity with no translations at all resolves the
label "pt-BR" to the default, and an entity with only a French sitelink resolves the
wikilink for "de-AT" to that sitelink. -/
theorem locale_fallback_terminates_totally_witness :
    try_get_label_in (fun _ => none) "Berlin" (some ["pt", "BR"]) = "Berlin" ∧
    ∃ url, try_get_wikilink_in [(["fr"], "https://fr.wikipedia.org/wiki/Berlin")]
      (some ["de", "AT"]) = Except.ok url :=
  locale_fallback_terminates_totally (fun _ => none) "Berlin" ["pt", "BR"] rfl rfl
    [(["fr"], "https://fr.wikipedia.org/wiki/Berlin")] (by simp) (some ["de", "AT"])

/-- Counterexample to C9 as stated: for an entity with no sitelinks at all (so neither
the requested locale "de-AT" nor its base language has a wiki link), the fallback chain
of `try_get_wikilink_in` ends in `next(iter({}.values()))`, which raises instead of
returning a value. -/
theorem try_get_wikilink_in_raises_no_sitelinks :
    try_get_wikilink_in [] (some ["de", "AT"]) = Except.error () := by
  rw [try_get_wikilink_in_step [] ["de", "AT"] rfl,
    if_pos (by simp : 2 ≤ (["de", "AT"] : List String).length)]
  rw [show (["de", "AT"] : List String).headD "" = "de" from rfl]
  rw [try_get_wikilink_in_step [] ["de"] rfl,
    if_neg (by simp : ¬ 2 ≤ (["de"] : List String).length),
    if_neg (by simp : ¬ (["de"] : List String) = ["en"])]
  rw [try_get_wikilink_in_step [] ["en"] rfl,
    if_neg (by simp : ¬ 2 ≤ (["en"] : List String).length), if_pos rfl]
  rw [try_get_wikilink_in.eq_1]

/-- Witness for C7 at a concrete subdivision with a bare-year inception 1900 and an
end time in 1950, against the reference date 2020-05-17: it is excluded exactly
because its end bound lies before the date. -/
theorem get_subdivisions_exactly_valid_witness :
    (⟨1, TimePropValue.yearOnly 1900, TimePropValue.absent, TimePropValue.absent,
        TimePropValue.date ⟨1950, 1, 1⟩⟩ : Subdivision) ∈
      get_subdivisions
        [⟨1, TimePropValue.yearOnly 1900, TimePropValue.absent, TimePropValue.absent,
          TimePropValue.date ⟨1950, 1, 1⟩⟩] ⟨2020, 5, 17⟩ ↔
    (⟨1, TimePropValue.yearOnly 1900, TimePropValue.absent, TimePropValue.absent,
        TimePropValue.date ⟨1950, 1, 1⟩⟩ : Subdivision) ∈
      [(⟨1, TimePropValue.yearOnly 1900, TimePropValue.absent, TimePropValue.absent,
        TimePropValue.date ⟨1950, 1, 1⟩⟩ : Subdivision)] ∧
    validity_window_contains
      ⟨1, TimePropValue.yearOnly 1900, TimePropValue.absent, TimePropValue.absent,
        TimePropValue.date ⟨1950, 1, 1⟩⟩ ⟨2020, 5, 17⟩ :=
  get_subdivisions_exactly_valid
    [⟨1, TimePropValue.yearOnly 1900, TimePropValue.absent, TimePropValue.absent,
      TimePropValue.date ⟨1950, 1, 1⟩⟩] ⟨2020, 5, 17⟩
    ⟨1, TimePropValue.yearOnly 1900, TimePropValue.absent, TimePropValue.absent,
      TimePropValue.date ⟨1950, 1, 1⟩⟩

/-- Witness for C10 at the concrete points `[(3, 170), (-2, -170)]` (a date-line
crossing pair): the latitude bounds are still the exact minimum and maximum. -/
theorem bounding_box_latitude_exact_witness :
    ∃ a b c d, bounding_box_for_points [((3 : ℚ), (170 : ℚ)), (-2, -170)] =
        some (a, b, c, d) ∧
      (∃ q ∈ [((3 : ℚ), (170 : ℚ)), (-2, -170)], q.1 = a) ∧
      (∀ q ∈ [((3 : ℚ), (170 : ℚ)), (-2, -170)], a ≤ q.1) ∧
      (∃ q ∈ [((3 : ℚ), (170 : ℚ)), (-2, -170)], q.1 = c) ∧
      (∀ q ∈ [((3 : ℚ), (170 : ℚ)), (-2, -170)], q.1 ≤ c) :=
  bounding_box_latitude_exact ((3 : ℚ), (170 : ℚ)) [(-2, -170)]
